import Mathlib

/-!
Shallow embedding of the relay core of `mcp-feishu-bot`:
the deduplication and freshness filter, the event router and the reply
handlers of `src/mcp_feishu_bot/relay.py`, and the connection manager of
`src/mcp_feishu_bot/robot.py`.  Machine integers are modelled as `Nat`
(timestamps are nonnegative epoch values, and Python's `now - ts // 1000
> 600` comparison on a possibly negative left side agrees with truncated
`Nat` subtraction, since both sides reject ages at or below zero only
when the threshold is positive).
-/

namespace FeishuBot

/-- `RelayHandle._dedup_ttl_seconds` (relay.py): TTL of dedup entries, 1800 s. -/
def dedupTTL : Nat := 1800

/-- The staleness threshold hard-coded in `RelayHandle.on_feishu_msg`
(relay.py, step 2): messages older than 600 s are dropped. -/
def staleSecs : Nat := 600

/-- The dedup map `RelayHandle._seen_trace_ids`: `trace_id -> seen_at`
(seconds).  A Python dict with unique keys, modelled as an association
list; theorems that need dict semantics assume `Nodup` keys. -/
abbrev SeenMap := List (String × Nat)

/-- `RelayHandle._prune_seen` (relay.py): delete every entry whose value
is strictly below `now_sec - ttl`. -/
def pruneSeen (m : SeenMap) (nowSec : Nat) : SeenMap :=
  m.filter (fun kv => !decide (kv.2 < nowSec - dedupTTL))

/-- The per-type dispatch at the end of `on_feishu_msg`: `text`, `image`
and `file` have handlers, any other `message_type` falls through. -/
inductive MsgKind where
  | text
  | image
  | file
  | other
deriving DecidableEq

/-- How `on_feishu_msg` classifies `message_type`. -/
def msgKindOf (t : String) : MsgKind :=
  if t = "text" then .text
  else if t = "image" then .image
  else if t = "file" then .file
  else .other

/-- Observable outcome of one `on_feishu_msg` call. -/
inductive FeishuOutcome where
  | duplicate
  | expired
  | admitted (kind : MsgKind)
deriving DecidableEq

/-- Whether the outcome ran one of the `_on_text_msg` / `_on_image_msg`
/ `_on_file_msg` handlers (the only places that acknowledge with an
emoji reaction or forward to the worker). -/
def FeishuOutcome.invokesHandler : FeishuOutcome → Bool
  | .admitted .text => true
  | .admitted .image => true
  | .admitted .file => true
  | _ => false

/-- `RelayHandle.on_feishu_msg` (relay.py): prune, reject duplicates,
reject messages older than 600 s, otherwise record the trace id and
dispatch on `message_type`.  Returns the updated dedup map and the
outcome. -/
def onFeishuMsg (m : SeenMap) (messageId : String) (createTimeMs : Nat)
    (msgType : String) (nowSec : Nat) : SeenMap × FeishuOutcome :=
  let m1 := pruneSeen m nowSec
  if (m1.lookup messageId).isSome then
    (m1, .duplicate)
  else if staleSecs < nowSec - createTimeMs / 1000 then
    (m1, .expired)
  else
    ((messageId, nowSec) :: m1, .admitted (msgKindOf msgType))

/-! ### Lemmas about lookup and pruning -/

theorem lookup_eq_none_of_not_mem_keys (m : SeenMap) (k : String)
    (h : k ∉ m.map Prod.fst) : m.lookup k = none := by
  induction m with
  | nil => rfl
  | cons hd tl ih =>
    obtain ⟨a, b⟩ := hd
    simp only [List.map_cons, List.mem_cons, not_or] at h
    have hne : (k == a) = false := by
      simpa [beq_iff_eq] using h.1
    simp [List.lookup, hne, ih h.2]

theorem lookup_filter_none (m : SeenMap) (p : String × Nat → Bool)
    (k : String) (h : m.lookup k = none) : (m.filter p).lookup k = none := by
  induction m with
  | nil => rfl
  | cons hd tl ih =>
    obtain ⟨a, b⟩ := hd
    by_cases hk : (k == a) = true
    · simp [List.lookup, hk] at h
    · have hk' : (k == a) = false := by simpa using hk
      simp only [List.lookup, hk'] at h
      rcases hp : p (a, b) with _ | _
      · simpa [List.filter, hp] using ih h
      · simpa [List.filter, hp, List.lookup, hk'] using ih h

/-- Pruning acts on each key like `Option.filter` on its stored value:
entries strictly older than `now - TTL` disappear, all others survive
with their value unchanged. -/
theorem lookup_pruneSeen (m : SeenMap) (nowSec : Nat) (k : String)
    (hnd : (m.map Prod.fst).Nodup) :
    (pruneSeen m nowSec).lookup k =
      (m.lookup k).filter (fun v => !decide (v < nowSec - dedupTTL)) := by
  induction m with
  | nil => rfl
  | cons hd tl ih =>
    obtain ⟨a, b⟩ := hd
    simp only [List.map_cons, List.nodup_cons] at hnd
    by_cases hb : b < nowSec - dedupTTL
    · have hfc : pruneSeen ((a, b) :: tl) nowSec = pruneSeen tl nowSec := by
        simp [pruneSeen, List.filter_cons, hb]
      by_cases hk : k = a
      · have htl : tl.lookup k = none := by
          apply lookup_eq_none_of_not_mem_keys
          rw [hk]; exact hnd.1
        have h1 : (pruneSeen tl nowSec).lookup k = none :=
          lookup_filter_none tl _ k htl
        have h2 : List.lookup k ((a, b) :: tl) = some b := by
          simp [List.lookup, hk]
        rw [hfc, h1, h2]
        simp [Option.filter, hb]
      · have hk2 : (k == a) = false := beq_eq_false_iff_ne.mpr hk
        have h2 : List.lookup k ((a, b) :: tl) = List.lookup k tl := by
          simp [List.lookup, hk2]
        rw [hfc, h2]
        exact ih hnd.2
    · have hfc : pruneSeen ((a, b) :: tl) nowSec =
          (a, b) :: pruneSeen tl nowSec := by
        simp [pruneSeen, List.filter_cons, hb]
      by_cases hk : k = a
      · have h2 : List.lookup k ((a, b) :: tl) = some b := by
          simp [List.lookup, hk]
        have h3 : List.lookup k ((a, b) :: pruneSeen tl nowSec) = some b := by
          simp [List.lookup, hk]
        rw [hfc, h3, h2]
        simp [Option.filter, hb]
      · have hk2 : (k == a) = false := beq_eq_false_iff_ne.mpr hk
        have h2 : List.lookup k ((a, b) :: tl) = List.lookup k tl := by
          simp [List.lookup, hk2]
        have h3 : List.lookup k ((a, b) :: pruneSeen tl nowSec) =
            (pruneSeen tl nowSec).lookup k := by
          simp [List.lookup, hk2]
        rw [hfc, h3, h2]
        exact ih hnd.2

/-- If every entry is fresh at `now`, pruning changes nothing. -/
theorem pruneSeen_eq_self (m : SeenMap) (nowSec : Nat)
    (h : ∀ kv ∈ m, nowSec - dedupTTL ≤ kv.2) : pruneSeen m nowSec = m := by
  unfold pruneSeen
  rw [List.filter_eq_self]
  intro kv hkv
  simpa using Nat.not_lt.mpr (h kv hkv)

/-- C5: pruning removes exactly the entries whose `seen_at` is strictly
older than `now - TTL`: for any entry recorded at `t0`, it is still
present when pruning runs at `t0 + TTL - 1` and absent after pruning
runs at `t0 + TTL + 1`. -/
theorem prune_exact (m : SeenMap) (k : String) (t0 nowSec : Nat)
    (hnd : (m.map Prod.fst).Nodup) (hk : m.lookup k = some t0) :
    ((pruneSeen m nowSec).lookup k =
      if t0 < nowSec - dedupTTL then none else some t0) ∧
    (pruneSeen m (t0 + dedupTTL - 1)).lookup k = some t0 ∧
    (pruneSeen m (t0 + dedupTTL + 1)).lookup k = none := by
  refine ⟨?_, ?_, ?_⟩
  · rw [lookup_pruneSeen m nowSec k hnd, hk]
    by_cases h : t0 < nowSec - dedupTTL
    · simp [Option.filter, h]
    · simp [Option.filter, h]
  · rw [lookup_pruneSeen m _ k hnd, hk]
    have h : ¬ (t0 < t0 + dedupTTL - 1 - dedupTTL) := by
      simp only [dedupTTL]; omega
    simp [Option.filter, h]
  · rw [lookup_pruneSeen m _ k hnd, hk]
    have h : t0 < t0 + dedupTTL + 1 - dedupTTL := by
      simp only [dedupTTL]; omega
    simp [Option.filter, h]

theorem prune_exact_witness :
    (pruneSeen [("m1", 10)] (10 + dedupTTL - 1)).lookup "m1" = some 10 ∧
    (pruneSeen [("m1", 10)] (10 + dedupTTL + 1)).lookup "m1" = none := by
  have h := prune_exact [("m1", 10)] "m1" 10 10 (by simp) rfl
  exact ⟨h.2.1, h.2.2⟩

/-- C3: duplicates are rejected idempotently.  From a dedup map whose
entries are all still fresh at the second delivery, a fresh message
admitted at `now1` and redelivered at `now2` within the TTL is
dispatched the first time and rejected as a duplicate the second time,
leaving the dedup map unchanged. -/
theorem admit_idempotent_for_duplicates (s0 : SeenMap) (id ty : String)
    (ts now1 now2 : Nat)
    (hfree : s0.lookup id = none)
    (hfresh : now1 - ts / 1000 ≤ staleSecs)
    (h12 : now1 ≤ now2)
    (hTTL : now2 ≤ now1 + dedupTTL)
    (hlive : ∀ kv ∈ s0, now2 - dedupTTL ≤ kv.2)
    (hsupp : msgKindOf ty ≠ .other) :
    (onFeishuMsg s0 id ts ty now1).2 = .admitted (msgKindOf ty) ∧
    (onFeishuMsg s0 id ts ty now1).2.invokesHandler = true ∧
    (onFeishuMsg (onFeishuMsg s0 id ts ty now1).1 id ts ty now2).2 =
      .duplicate ∧
    (onFeishuMsg (onFeishuMsg s0 id ts ty now1).1 id ts ty now2).1 =
      (onFeishuMsg s0 id ts ty now1).1 := by
  have hlive1 : ∀ kv ∈ s0, now1 - dedupTTL ≤ kv.2 := fun kv h =>
    le_trans (Nat.sub_le_sub_right h12 _) (hlive kv h)
  have hp1 : pruneSeen s0 now1 = s0 := pruneSeen_eq_self _ _ hlive1
  have hr1 : onFeishuMsg s0 id ts ty now1 =
      ((id, now1) :: s0, .admitted (msgKindOf ty)) := by
    simp [onFeishuMsg, hp1, hfree, Nat.not_lt.mpr hfresh]
  have hp2 : pruneSeen ((id, now1) :: s0) now2 = (id, now1) :: s0 := by
    apply pruneSeen_eq_self
    intro kv hkv
    rcases List.mem_cons.mp hkv with h | h
    · subst h
      simp only [dedupTTL] at hTTL ⊢
      omega
    · exact hlive kv h
  have hlook : ((id, now1) :: s0).lookup id = some now1 := by
    simp [List.lookup]
  have hr2 : onFeishuMsg ((id, now1) :: s0) id ts ty now2 =
      ((id, now1) :: s0, .duplicate) := by
    simp [onFeishuMsg, hp2, hlook]
  refine ⟨by rw [hr1], ?_, by rw [hr1]; rw [hr2], by rw [hr1]; rw [hr2]⟩
  rw [hr1]
  cases hmk : msgKindOf ty with
  | other => exact absurd hmk hsupp
  | text => simp [FeishuOutcome.invokesHandler]
  | image => simp [FeishuOutcome.invokesHandler]
  | file => simp [FeishuOutcome.invokesHandler]

theorem admit_idempotent_for_duplicates_witness :
    (onFeishuMsg [] "m1" 0 "text" 0).2 = .admitted .text ∧
    (onFeishuMsg (onFeishuMsg [] "m1" 0 "text" 0).1 "m1" 0 "text" 1).2 =
      .duplicate ∧
    (onFeishuMsg (onFeishuMsg [] "m1" 0 "text" 0).1 "m1" 0 "text" 1).1 =
      (onFeishuMsg [] "m1" 0 "text" 0).1 := by
  have h := admit_idempotent_for_duplicates [] "m1" "text" 0 0 1
    rfl (by decide) (by decide) (by simp [dedupTTL]) (by simp) (by decide)
  exact ⟨by rw [h.1]; rfl, h.2.2.1, h.2.2.2⟩

/-- C4: a message whose age `now - create_time / 1000` exceeds 600 s is
rejected whatever the dedup map holds: the map after the call is exactly
the pruned map (nothing is inserted, and an absent trace id stays
absent), and no per-type handler runs, so there is no acknowledgement
reaction and no forwarding. -/
theorem stale_always_rejected (s : SeenMap) (id ty : String)
    (ts nowSec : Nat)
    (hstale : staleSecs < nowSec - ts / 1000) :
    (onFeishuMsg s id ts ty nowSec).1 = pruneSeen s nowSec ∧
    ((onFeishuMsg s id ts ty nowSec).2 = .duplicate ∨
      (onFeishuMsg s id ts ty nowSec).2 = .expired) ∧
    (onFeishuMsg s id ts ty nowSec).2.invokesHandler = false ∧
    (s.lookup id = none →
      (onFeishuMsg s id ts ty nowSec).1.lookup id = none) := by
  by_cases hdup : ((pruneSeen s nowSec).lookup id).isSome
  · have hmap : (onFeishuMsg s id ts ty nowSec).1 = pruneSeen s nowSec := by
      simp [onFeishuMsg, hdup]
    refine ⟨hmap, ?_, ?_, ?_⟩
    · left; simp [onFeishuMsg, hdup]
    · simp [onFeishuMsg, hdup, FeishuOutcome.invokesHandler]
    · intro hnone
      rw [hmap]
      exact lookup_filter_none s _ id hnone
  · have hmap : (onFeishuMsg s id ts ty nowSec).1 = pruneSeen s nowSec := by
      simp [onFeishuMsg, hdup, hstale]
    refine ⟨hmap, ?_, ?_, ?_⟩
    · right; simp [onFeishuMsg, hdup, hstale]
    · simp [onFeishuMsg, hdup, hstale, FeishuOutcome.invokesHandler]
    · intro hnone
      rw [hmap]
      exact lookup_filter_none s _ id hnone

theorem stale_always_rejected_witness :
    (onFeishuMsg [] "m2" 0 "text" 1300).1 = pruneSeen [] 1300 ∧
    (onFeishuMsg [] "m2" 0 "text" 1300).2 = .expired ∧
    (onFeishuMsg [] "m2" 0 "text" 1300).2.invokesHandler = false ∧
    (onFeishuMsg [] "m2" 0 "text" 1300).1.lookup "m2" = none := by
  have h := stale_always_rejected [] "m2" "text" 0 1300 (by decide)
  refine ⟨h.1, ?_, h.2.2.1, h.2.2.2 rfl⟩
  rcases h.2.1 with hd | he
  · exact absurd hd (by decide)
  · exact he

/-- C10: every admitted message records its trace id before the
per-type dispatch, even when `message_type` has no handler; a redelivery
within the TTL is therefore rejected as a duplicate although the first
delivery invoked no handler. -/
theorem admitted_inserted_before_dispatch (s : SeenMap) (id ty : String)
    (ts now1 now2 : Nat)
    (hfree : (pruneSeen s now1).lookup id = none)
    (hfresh : now1 - ts / 1000 ≤ staleSecs)
    (hTTL : now2 ≤ now1 + dedupTTL) :
    (onFeishuMsg s id ts ty now1).1 = (id, now1) :: pruneSeen s now1 ∧
    (onFeishuMsg s id ts ty now1).2 = .admitted (msgKindOf ty) ∧
    (ty ∉ (["text", "image", "file"] : List String) →
      (onFeishuMsg s id ts ty now1).2.invokesHandler = false) ∧
    (onFeishuMsg (onFeishuMsg s id ts ty now1).1 id ts ty now2).2 =
      .duplicate := by
  have hr1 : onFeishuMsg s id ts ty now1 =
      ((id, now1) :: pruneSeen s now1, .admitted (msgKindOf ty)) := by
    simp [onFeishuMsg, hfree, Nat.not_lt.mpr hfresh]
  have hhead : (!decide (now1 < now2 - dedupTTL)) = true := by
    simp only [dedupTTL] at hTTL ⊢
    simp
    omega
  have hp2 : pruneSeen ((id, now1) :: pruneSeen s now1) now2 =
      (id, now1) :: pruneSeen (pruneSeen s now1) now2 := by
    simp only [pruneSeen] at hhead ⊢
    rw [List.filter_cons, hhead]
    simp
  have hlook : ((id, now1) ::
      pruneSeen (pruneSeen s now1) now2).lookup id = some now1 := by
    simp [List.lookup]
  refine ⟨by rw [hr1], by rw [hr1], ?_, ?_⟩
  · intro hty
    rw [hr1]
    have hmk : msgKindOf ty = .other := by
      simp only [List.mem_cons, List.not_mem_nil, or_false, not_or] at hty
      simp [msgKindOf, hty.1, hty.2.1, hty.2.2]
    simp [hmk, FeishuOutcome.invokesHandler]
  · rw [hr1]
    simp [onFeishuMsg, hp2, hlook]

theorem admitted_inserted_before_dispatch_witness :
    (onFeishuMsg [] "m3" 0 "audio" 0).1 = [("m3", 0)] ∧
    (onFeishuMsg [] "m3" 0 "audio" 0).2.invokesHandler = false ∧
    (onFeishuMsg (onFeishuMsg [] "m3" 0 "audio" 0).1 "m3" 0 "audio" 1).2 =
      .duplicate := by
  have h := admitted_inserted_before_dispatch [] "m3" "audio" 0 0 1
    rfl (by decide) (by simp [dedupTTL])
  exact ⟨by rw [h.1]; rfl, h.2.2.1 (by decide), h.2.2.2⟩

/-! ### Connection manager: reconnect backoff (`RobotClient._run`) -/

/-- The trailing `time.sleep(backoff)` of one iteration of the outer
loop in `RobotClient._run` (robot.py).  On an iteration whose connect
succeeded, `backoff` was reset to 1 before the read loop, so the sleep
after the session drops is 1; on a failed connect the sleep is the
current backoff. -/
def sleepOf (backoff : Nat) (ok : Bool) : Nat :=
  if ok then 1 else backoff

/-- The `backoff = min(backoff * 2, 30)` update executed right after the
sleep, applied to the backoff value current at that point. -/
def nextBackoff (backoff : Nat) (ok : Bool) : Nat :=
  min (sleepOf backoff ok * 2) 30

/-- The sleep durations produced by a run of the loop over the given
iteration outcomes (`true` = connect succeeded then dropped, `false` =
connect attempt failed), starting from the given backoff value. -/
def sleepsFrom (backoff : Nat) : List Bool → List Nat
  | [] => []
  | ok :: rest => sleepOf backoff ok :: sleepsFrom (nextBackoff backoff ok) rest

theorem nextBackoff_pow (j : Nat) :
    min (min (2 ^ j) 30 * 2) 30 = min (2 ^ (j + 1)) 30 := by
  rcases le_or_lt (2 ^ j) 30 with h | h
  · rw [min_eq_left h, pow_succ]
  · have h2 : 30 < 2 ^ (j + 1) :=
      lt_of_lt_of_le h (Nat.pow_le_pow_right (by norm_num) (Nat.le_succ j))
    rw [min_eq_right (le_of_lt h), min_eq_right (le_of_lt h2)]
    norm_num

theorem sleepsFrom_pow (n : Nat) : ∀ j : Nat,
    sleepsFrom (min (2 ^ j) 30) (List.replicate n false) =
      (List.range n).map (fun k => min (2 ^ (j + k)) 30) := by
  induction n with
  | zero => intro j; rfl
  | succ n ih =>
    intro j
    rw [List.replicate_succ]
    have hstep : sleepsFrom (min (2 ^ j) 30)
        (false :: List.replicate n false) =
        min (2 ^ j) 30 ::
          sleepsFrom (min (min (2 ^ j) 30 * 2) 30)
            (List.replicate n false) := rfl
    rw [hstep, nextBackoff_pow j, ih (j + 1)]
    rw [List.range_succ_eq_map, List.map_cons, List.map_map]
    have hfun : ((fun k => min (2 ^ (j + k)) 30) ∘ Nat.succ) =
        fun k => min (2 ^ (j + 1 + k)) 30 := by
      funext k
      have h2 : j + Nat.succ k = j + 1 + k := by omega
      simp [Function.comp, h2]
    rw [hfun]
    simp

theorem sleepsFrom_one (n : Nat) :
    sleepsFrom 1 (List.replicate n false) =
      (List.range n).map (fun k => min (2 ^ k) 30) := by
  have h := sleepsFrom_pow n 0
  have h0 : min (2 ^ 0) 30 = 1 := by norm_num
  rw [h0] at h
  simpa using h

/-- C6: starting from the initial backoff, consecutive failed connect
attempts sleep `1, 2, 4, 8, 16, 30, 30, ...` seconds (doubling capped
at 30); and after any successful reconnect, whatever the backoff had
grown to, the subsequent sleeps restart at 1 and follow the same
sequence. -/
theorem backoff_sequence (n b : Nat) :
    sleepsFrom 1 (List.replicate n false) =
      (List.range n).map (fun k => min (2 ^ k) 30) ∧
    sleepsFrom b (true :: List.replicate n false) =
      (List.range (n + 1)).map (fun k => min (2 ^ k) 30) := by
  refine ⟨sleepsFrom_one n, ?_⟩
  have h1 : sleepsFrom b (true :: List.replicate n false) =
      sleepsFrom 1 (List.replicate (n + 1) false) := by
    rw [List.replicate_succ]
    rfl
  rw [h1]
  exact sleepsFrom_one (n + 1)

/-! ### Connection manager: thread-safe send (`RobotClient.send_text`,
`RobotClient.send_json`) -/

/-- The state `send_text` observes: whether `self._loop` is set, whether
`self._ws` is a live socket, and whether the scheduled `ws.send` future
resolves within the 5 s timeout. -/
structure SendCtx where
  hasLoop : Bool
  hasWs : Bool
  writeCompletes : Bool

/-- `RobotClient.send_text` (robot.py): `false` when `self._loop` or
`self._ws` is `None`; otherwise the write is scheduled on the loop and
the result is whether the future completed within the timeout, a
timeout or send error being caught and turned into `false`. -/
def sendText (c : SendCtx) : Bool :=
  if !c.hasLoop || !c.hasWs then false else c.writeCompletes

/-- `RobotClient.send_json` (robot.py): JSON-encode, then delegate to
`send_text`; an encoding error is caught and yields `false`. -/
def sendJson (encodeOk : Bool) (c : SendCtx) : Bool :=
  if encodeOk then sendText c else false

/-- C7: `send_text` returns `false` whenever the loop or the socket is
absent, and returns `true` exactly when connected and the write
completes within the timeout; `send_json` returns `false` on an encode
failure and otherwise the value of `send_text`; both are total (no
exception reaches the caller). -/
theorem send_text_send_json_spec (c : SendCtx) :
    (sendText c = true ↔
      c.hasLoop = true ∧ c.hasWs = true ∧ c.writeCompletes = true) ∧
    ((c.hasLoop = false ∨ c.hasWs = false) → sendText c = false) ∧
    sendJson false c = false ∧
    sendJson true c = sendText c := by
  obtain ⟨l, w, s⟩ := c
  cases l <;> cases w <;> cases s <;> simp [sendText, sendJson]

theorem send_text_send_json_spec_witness :
    sendText ⟨false, true, true⟩ = false :=
  (send_text_send_json_spec ⟨false, true, true⟩).2.1 (Or.inl rfl)

/-! ### JSON values and Python truthiness -/

/-- A parsed JSON value, as produced by `json.loads`. -/
inductive JVal where
  | null
  | bool (b : Bool)
  | num (n : Int)
  | str (s : String)
  | arr (elems : List JVal)
  | obj (fields : List (String × JVal))

/-- Python truthiness (`bool(x)`) of a parsed JSON value: `None`,
`False`, `0`, `""`, `[]` and the empty dict are falsy. -/
def JVal.truthy : JVal → Bool
  | .null => false
  | .bool b => b
  | .num n => n != 0
  | .str s => !s.isEmpty
  | .arr xs => !xs.isEmpty
  | .obj fs => !fs.isEmpty

/-! ### Connection manager: inbound frame dispatch (`RobotClient._run`
receive loop with `_try_parse_json`) -/

/-- The per-frame dispatch in the receive loop of `RobotClient._run`
(robot.py): `parsed = self._try_parse_json(message)` yields `none` when
the text does not parse as JSON, otherwise the parsed value (any JSON
value, not only objects); `if parsed and self._on_event` then invokes
the callback once with the parsed value.  Returns the value handed to
the callback, or `none` when the callback is not invoked. -/
def deliverFrame (parsed : Option JVal) (hasCallback : Bool) : Option JVal :=
  match parsed with
  | some v => if v.truthy && hasCallback then some v else none
  | none => none

/-! ### Event router: worker-side events (`RelayHandle.on_robot_event`
and `RelayHandle._on_respond`) -/

/-- Observable outcome of `RelayHandle._on_respond` (relay.py). -/
inductive RespondResult where
  | unknownDetail
  | exn
  | notFinish
  | sent (receiveId : String) (content : String)
deriving DecidableEq

/-- The fixed reply destination hard-coded in `_on_respond`. -/
def respondDest : String := "chnwine@qq.com"

/-- Python `str.strip()` with no argument: drop leading and trailing
whitespace.  Core's `String.trim` is extensionally the same but does
not reduce definitionally, so the embedding uses this structurally
recursive version. -/
def pyStrip (s : String) : String :=
  ⟨((s.data.dropWhile Char.isWhitespace).reverse.dropWhile
      Char.isWhitespace).reverse⟩

/-- What `"\n".join(x)` accepts: a list of strings (element-wise), or —
Python iterability — a string (its characters) or a dict (its keys);
any non-string element or non-iterable raises `TypeError`. -/
def strListOf : List JVal → Except Unit (List String)
  | [] => .ok []
  | v :: rest =>
    match v with
    | .str s =>
      match strListOf rest with
      | .ok l => .ok (s :: l)
      | .error e => .error e
    | _ => .error ()

def joinArg : JVal → Except Unit (List String)
  | .arr xs => strListOf xs
  | .str s => .ok (s.toList.map fun c => String.singleton c)
  | .obj fs => .ok (fs.map Prod.fst)
  | _ => .error ()

/-- `opts = item.get("options") or []` followed by `"\n".join(opts)`:
a missing or falsy value becomes the empty list. -/
def optionsOf (fs : List (String × JVal)) : Except Unit (List String) :=
  match fs.lookup "options" with
  | none => .ok []
  | some v => if v.truthy then joinArg v else .ok []

/-- One iteration of the `for item in detail.get("actions") or []` loop
in `_on_respond`: returns whether the item was a tool result and the
text fragments it contributes, or an error when the Python code would
raise (`item.get` on a non-dict, `.strip()` on a non-string, joining a
non-iterable). -/
def processItem (item : JVal) : Except Unit (Bool × List String) :=
  match item with
  | .obj fs =>
    match fs.lookup "type" with
    | some (.str t) =>
      if t = "make-ask" then
        match fs.lookup "question" with
        | some (.str q) =>
          match optionsOf fs with
          | .ok opts =>
          .ok (true, [pyStrip q, String.intercalate "\n" opts])
          | .error e => .error e
        | _ => .error ()
      else if t = "complete" then
        match fs.lookup "content" with
        | some (.str c) => .ok (true, [pyStrip c])
        | _ => .error ()
      else .ok (false, [])
    | _ => .ok (false, [])
  | _ => .error ()

/-- The whole loop of `_on_respond`: `has_tool_result` is the `or` over
items, the fragments accumulate in item order, and an exception aborts
everything. -/
def collectParts : List JVal → Except Unit (Bool × List String)
  | [] => .ok (false, [])
  | item :: rest =>
    match processItem item with
    | .error e => .error e
    | .ok (h, ps) =>
      match collectParts rest with
      | .error e => .error e
      | .ok (h2, ps2) => .ok (h || h2, ps ++ ps2)

/-- `detail.get("actions") or []`: a missing or falsy value iterates as
the empty list; a truthy non-list value makes the loop body raise. -/
def actionsOf (fs : List (String × JVal)) : Except Unit (List JVal) :=
  match fs.lookup "actions" with
  | none => .ok []
  | some v =>
    if v.truthy then
      match v with
      | .arr xs => .ok xs
      | _ => .error ()
    else .ok []

/-- `RelayHandle._on_respond` (relay.py): a non-dict detail is logged
and dropped; otherwise the actions are scanned, and when some item was
a `make-ask` or `complete`, the fragments joined with a blank line and
stripped are sent as one text message to the fixed destination.  An
exception propagates (`.exn`) to the caller's catch. -/
def onRespond (detail : JVal) : RespondResult :=
  match detail with
  | .obj fields =>
    match actionsOf fields with
    | .error _ => .exn
    | .ok items =>
      match collectParts items with
      | .error _ => .exn
      | .ok (has, parts) =>
        if has then
          .sent respondDest (pyStrip (String.intercalate "\n\n" parts))
        else .notFinish
  | _ => .unknownDetail

/-- Observable outcome of `RelayHandle.on_robot_event` (relay.py). -/
inductive RobotEventOutcome where
  | unknownPayload
  | droppedMethod
  | errorsLogged
  | respond (r : RespondResult)
  | controlLogged
  | welcomeLogged
  | noop
  | unknownAction
  | handlerError
deriving DecidableEq

/-- The action dispatch inside `on_robot_event`: the four handled
actions, then the `act_list = ["user-input", "hello", "stream",
"change"]` membership test deciding between a silent no-op and the
unknown-action log.  A non-string action matches none of the
comparisons and is not in `act_list`, hence unknown.  An exception
escaping `_on_respond` is caught and logged. -/
def routeAction (fields : List (String × JVal)) : RobotEventOutcome :=
  let detail := (fields.lookup "detail").getD JVal.null
  match fields.lookup "action" with
  | some (.str a) =>
    if a = "errors" then .errorsLogged
    else if a = "respond" then
      match onRespond detail with
      | .exn => .handlerError
      | r => .respond r
    else if a = "control" then .controlLogged
    else if a = "welcome" then .welcomeLogged
    else if a ∈ (["user-input", "hello", "stream", "change"] : List String)
      then .noop
    else .unknownAction
  | _ => .unknownAction

/-- `RelayHandle.on_robot_event` (relay.py): non-dict payloads are
logged as unknown; methods outside `system` / `message` are dropped
silently; otherwise the action dispatch runs. -/
def onRobotEvent (payload : JVal) : RobotEventOutcome :=
  match payload with
  | .obj fields =>
    match fields.lookup "method" with
    | some (.str m) =>
      if m = "system" ∨ m = "message" then routeAction fields
      else .droppedMethod
    | _ => .droppedMethod
  | _ => .unknownPayload

/-- C8 counterexample: the empty JSON object parses as a JSON object
yet is falsy, so the callback is not invoked; a non-empty JSON array is
not an object yet is truthy, so the callback is invoked with it. -/
theorem frame_object_counterexample :
    deliverFrame (some (JVal.obj [])) true = none ∧
    deliverFrame (some (JVal.arr [JVal.num 1])) true =
      some (JVal.arr [JVal.num 1]) :=
  ⟨rfl, rfl⟩

/-- C8 (amended): for a received text frame with the callback set, the
callback is invoked exactly once with the parsed value iff the frame
parses as JSON and the parsed value is Python-truthy; unparseable
frames (and falsy parses, including the empty object) are dropped. -/
theorem frame_dispatch_truthy (v : JVal) :
    (deliverFrame (some v) true = some v ↔ v.truthy = true) ∧
    (deliverFrame (some v) true = none ↔ v.truthy = false) ∧
    deliverFrame none true = none := by
  refine ⟨?_, ?_, rfl⟩ <;> cases hv : v.truthy <;> simp [deliverFrame, hv]

/-- C9 counterexample: action `hello` is outside the claim's set
`{errors, respond, control, welcome, user-input, stream, change}`, yet
the router treats it as a no-op (it sits in `act_list` in relay.py)
rather than logging it as unknown. -/
theorem hello_action_counterexample :
    onRobotEvent (JVal.obj [("method", JVal.str "system"),
      ("action", JVal.str "hello")]) = .noop ∧
    ("hello" : String) ∉ (["errors", "respond", "control", "welcome",
      "user-input", "stream", "change"] : List String) := by
  refine ⟨rfl, by decide⟩

/-- C9 (amended): for worker events with method `system` or `message`,
the actions `user-input`, `hello`, `stream` and `change` are recognized
no-ops, and every action outside `{errors, respond, control, welcome,
user-input, hello, stream, change}` is logged as an unknown action. -/
theorem noop_and_unknown_actions (m a : String)
    (hm : m = "system" ∨ m = "message") :
    (a ∈ (["user-input", "hello", "stream", "change"] : List String) →
      onRobotEvent (JVal.obj [("method", JVal.str m),
        ("action", JVal.str a)]) = .noop) ∧
    (a ∉ (["errors", "respond", "control", "welcome", "user-input",
        "hello", "stream", "change"] : List String) →
      onRobotEvent (JVal.obj [("method", JVal.str m),
        ("action", JVal.str a)]) = .unknownAction) := by
  constructor
  · intro ha
    simp only [List.mem_cons, List.not_mem_nil, or_false] at ha
    rcases hm with h | h <;> subst h <;>
      rcases ha with h | h | h | h <;> subst h <;> rfl
  · intro ha
    simp only [List.mem_cons, List.not_mem_nil, or_false, not_or] at ha
    obtain ⟨h1, h2, h3, h4, h5, h6, h7, h8⟩ := ha
    rcases hm with h | h <;> subst h <;>
      simp [onRobotEvent, routeAction, List.lookup, h1, h2, h3, h4, h5,
        h6, h7, h8]

theorem noop_and_unknown_actions_witness :
    onRobotEvent (JVal.obj [("method", JVal.str "message"),
      ("action", JVal.str "stream")]) = .noop ∧
    onRobotEvent (JVal.obj [("method", JVal.str "message"),
      ("action", JVal.str "foo")]) = .unknownAction :=
  ⟨(noop_and_unknown_actions "message" "stream" (Or.inr rfl)).1
      (by decide),
    (noop_and_unknown_actions "message" "foo" (Or.inr rfl)).2
      (by decide)⟩

/-! ### The respond handler (C1) -/

/-- A well-shaped action item of a `respond` detail, following the
protocol shapes the spec describes: a `make-ask` with a question and a
list of option strings, a `complete` with content, or an item of some
other type. -/
inductive RItem where
  | makeAsk (question : String) (options : List String)
  | complete (content : String)
  | other (ty : String)

/-- The JSON encoding of a well-shaped action item. -/
def RItem.toJVal : RItem → JVal
  | .makeAsk q opts =>
    .obj [("type", JVal.str "make-ask"), ("question", JVal.str q),
          ("options", JVal.arr (opts.map JVal.str))]
  | .complete c => .obj [("type", JVal.str "complete"),
      ("content", JVal.str c)]
  | .other t => .obj [("type", JVal.str t)]

/-- The text fragments one item contributes to the reply, as the code
collects them: the stripped question and the newline-joined options for
`make-ask`, the stripped content for `complete`. -/
def RItem.fragments : RItem → List String
  | .makeAsk q opts => [pyStrip q, String.intercalate "\n" opts]
  | .complete c => [pyStrip c]
  | .other _ => []

/-- Whether the item marks the response as final (`has_tool_result`). -/
def RItem.isFinal : RItem → Bool
  | .makeAsk _ _ => true
  | .complete _ => true
  | .other _ => false

theorem strListOf_map_str (l : List String) :
    strListOf (l.map JVal.str) = .ok l := by
  induction l with
  | nil => rfl
  | cons a t ih => simp [strListOf, ih]

theorem processItem_toJVal (i : RItem)
    (hother : ∀ t, i = RItem.other t →
      t ≠ "make-ask" ∧ t ≠ "complete") :
    processItem i.toJVal = .ok (i.isFinal, i.fragments) := by
  cases i with
  | makeAsk q opts =>
    cases opts with
    | nil => rfl
    | cons o os =>
      have hs : strListOf (JVal.str o :: List.map JVal.str os) =
          .ok (o :: os) := strListOf_map_str (o :: os)
      simp [processItem, RItem.toJVal, List.lookup, optionsOf, joinArg,
        JVal.truthy, hs, RItem.isFinal, RItem.fragments]
  | complete c => rfl
  | other t =>
    have h := hother t rfl
    simp [processItem, RItem.toJVal, List.lookup, h.1, h.2,
      RItem.isFinal, RItem.fragments]

theorem collectParts_toJVal (items : List RItem)
    (hother : ∀ i ∈ items, ∀ t, i = RItem.other t →
      t ≠ "make-ask" ∧ t ≠ "complete") :
    collectParts (items.map RItem.toJVal) =
      .ok (items.any RItem.isFinal, items.flatMap RItem.fragments) := by
  induction items with
  | nil => rfl
  | cons i rest ih =>
    have hi := processItem_toJVal i (hother i (by simp))
    have hr := ih (fun j hj t hjt => hother j (by simp [hj]) t hjt)
    simp [collectParts, hi, hr, List.any_cons, List.flatMap_cons]

/-- C1 counterexample: for the detail with a single `complete` item
whose content carries surrounding whitespace, the single reply text is
the stripped content, not the collected content fragment itself joined
by blank lines as the claim states. -/
theorem respond_strip_counterexample :
    onRespond (JVal.obj [("actions", JVal.arr [JVal.obj
      [("type", JVal.str "complete"),
       ("content", JVal.str "  Hello  ")]])]) =
      .sent respondDest "Hello" ∧
    ("Hello" : String) ≠ "  Hello  " := by
  refine ⟨rfl, by decide⟩

/-- C1 (amended): for a `respond` detail whose `actions` list holds
well-shaped items, nothing is sent when no item is of type `make-ask`
or `complete`; otherwise exactly one reply goes to the fixed
destination, its text being the collected fragments (stripped question
plus newline-joined options per `make-ask`, stripped content per
`complete`) joined by a blank line, with surrounding whitespace
stripped from the joined text. -/
theorem respond_collects_and_sends (items : List RItem)
    (hother : ∀ i ∈ items, ∀ t, i = RItem.other t →
      t ≠ "make-ask" ∧ t ≠ "complete") :
    onRespond (JVal.obj [("actions",
        JVal.arr (items.map RItem.toJVal))]) =
      if items.any RItem.isFinal then
        .sent respondDest
          (pyStrip (String.intercalate "\n\n" (items.flatMap RItem.fragments)))
      else .notFinish := by
  have hc := collectParts_toJVal items hother
  cases items with
  | nil => rfl
  | cons i rest =>
    have hact : actionsOf [("actions",
        JVal.arr ((i :: rest).map RItem.toJVal))] =
        .ok ((i :: rest).map RItem.toJVal) := by
      simp [actionsOf, List.lookup, JVal.truthy]
    simp only [onRespond, hact, hc]

theorem respond_collects_and_sends_witness :
    onRespond (JVal.obj [("actions",
      JVal.arr (List.map RItem.toJVal [RItem.complete "Hello"]))]) =
      .sent respondDest "Hello" := by
  have h := respond_collects_and_sends [RItem.complete "Hello"]
    (by intro i hi t hit; simp at hi; subst hi; simp at hit)
  rw [h]
  rfl

/-! ### The platform text-message handler (C2) -/

/-- The public methods `RobotClient` (robot.py) actually defines. -/
def robotClientMethods : List String :=
  ["start", "stop", "get_intent", "send_json", "send_text"]

/-- Whether the `self.robot.send_msg(...)` attribute lookup in
`_on_text_msg` (relay.py) can succeed on the bound `RobotClient`: the
class defines no `send_msg`, so the call raises `AttributeError`. -/
def robotHasSendMsg : Bool := robotClientMethods.contains "send_msg"

/-- A platform API call made by the text-message handler. -/
inductive Effect where
  | replyEmoji (v : JVal)
  | replyText (v : JVal)

/-- Observable outcome of `RelayHandle._on_text_msg` (relay.py). -/
inductive TextOutcome where
  | logOnly
  | caught
  | done
deriving DecidableEq

/-- `RelayHandle._on_text_msg` (relay.py), parameterized by whether a
`send_msg` attribute exists on the robot client so that the intended
behaviour can be stated next to the actual one.  Inputs: whether
`self.robot` is set, the parse of `msg.content` (`none` when
`json.loads` raises), and the worker response mapping `send_msg` would
return.  Output: the platform calls issued in order, and whether the
handler finished, hit the catch-all `except` (`.caught`), or only
logged (`.logOnly`).  The `except` guarantees nothing propagates to the
read loop. -/
def onTextMsgWith (hasSendMsg robotPresent : Bool)
    (contentParsed : Option JVal)
    (workerResp : List (String × JVal)) : List Effect × TextOutcome :=
  if !robotPresent then ([], .logOnly) else
  let ack : List Effect := [.replyEmoji (JVal.str "OneSecond")]
  match contentParsed with
  | none => (ack, .caught)
  | some parsed =>
    let data := if parsed.truthy then parsed
                else JVal.obj [("text", JVal.str "")]
    match data with
    | .obj fs =>
      match fs.lookup "text" with
      | none => (ack, .caught)
      | some _ =>
        if hasSendMsg then
          match workerResp.lookup "errmsg" with
          | some em => (ack ++ [.replyText em], .done)
          | none =>
            let e1 : List Effect :=
              match workerResp.lookup "message" with
              | some mv => [.replyText mv]
              | none => []
            let e2 : List Effect :=
              match workerResp.lookup "emoji" with
              | some ev => [.replyEmoji ev]
              | none => []
            (ack ++ e1 ++ e2, .done)
        else (ack, .caught)
    | _ => (ack, .caught)

/-- `_on_text_msg` as the code ships it: the robot client is a
`RobotClient`, which has no `send_msg`. -/
def onTextMsg := onTextMsgWith robotHasSendMsg

/-- C2: the worker response `errmsg` is never relayed.  On a text
message parsing to a dict with a `text` key and a worker response
containing `errmsg = "timeout"`, the handler issues only the
acknowledgement emoji and ends in the catch branch — the reply with
`"timeout"` required by the claim is absent — because
`RobotClient` defines no `send_msg` and the `AttributeError` is caught.
The read loop survives (`.caught`, not a propagated exception), and
with a `send_msg` attribute present the very same handler would reply
with the `errmsg` text, which is what the spec intends. -/
theorem text_msg_errmsg_bug :
    onTextMsg true (some (JVal.obj [("text", JVal.str "hi")]))
        [("errmsg", JVal.str "timeout")] =
      ([Effect.replyEmoji (JVal.str "OneSecond")], .caught) ∧
    Effect.replyText (JVal.str "timeout") ∉
      (onTextMsg true (some (JVal.obj [("text", JVal.str "hi")]))
        [("errmsg", JVal.str "timeout")]).1 ∧
    onTextMsgWith true true (some (JVal.obj [("text", JVal.str "hi")]))
        [("errmsg", JVal.str "timeout")] =
      ([Effect.replyEmoji (JVal.str "OneSecond"),
        Effect.replyText (JVal.str "timeout")], .done) := by
  refine ⟨rfl, ?_, rfl⟩
  have h : (onTextMsg true (some (JVal.obj [("text", JVal.str "hi")]))
      [("errmsg", JVal.str "timeout")]).1 =
      [Effect.replyEmoji (JVal.str "OneSecond")] := rfl
  rw [h]
  simp

end FeishuBot
